import Mathlib

/-!
Verification of the core detection and execution subsystem of an
arbitrage engine for binary prediction markets (Rust sources under
`src/`).  Prices and sizes are `rust_decimal::Decimal` values in the
program; all arithmetic on them along the detection and execution path
is exact, so they are modelled as rational numbers.  Wall-clock
instants are modelled as natural-number second counts, and network
responses (balance queries, order submissions, order-status polls) are
passed to the executor as explicit inputs.
-/

namespace PolyArb

/-- A single price level in an order book (src/orderbook/types.rs,
`PriceLevel`). -/
structure PriceLevel where
  price : ℚ
  size : ℚ
deriving DecidableEq

/-- Result of walking the book to fill a target size
(src/orderbook/types.rs, `FillInfo`). -/
structure FillInfo where
  filled_size : ℚ
  total_cost : ℚ
  vwap : ℚ
  worst_price : ℚ
  best_price : Option ℚ
deriving DecidableEq

/-- Arbitrage detection errors (src/error.rs, `ArbitrageError`). -/
inductive ArbitrageError where
  | InsufficientLiquidity (required available : ℚ)
  | InsufficientBalance (required available : ℚ)
  | InvalidSize (s : ℚ)
  | CooldownActive (remaining_seconds : ℕ)
  | NoOpportunity (total_cost threshold : ℚ)
  | BookInverted (side : String) (best_ask best_bid : ℚ)
deriving DecidableEq

/-- Trading errors (src/error.rs, `TradingError`); only the payload
shapes matter to the executor model, which never inspects them. -/
inductive TradingError where
  | SubmissionFailed (msg : String)
  | StatusFailed (msg : String)
  | CancelFailed (msg : String)
deriving DecidableEq

/-- The `for level in asks` loop of `calculate_fill_price`
(src/orderbook/aggregator.rs lines 28-42): state is
`(remaining, total_cost, worst_price)`; the loop breaks as soon as
`remaining` is zero, otherwise consumes `min(remaining, level.size)`. -/
def fillLoop (asks : List PriceLevel) (remaining total_cost worst_price : ℚ) :
    ℚ × ℚ × ℚ :=
  match asks with
  | [] => (remaining, total_cost, worst_price)
  | level :: rest =>
    if remaining = 0 then (remaining, total_cost, worst_price)
    else
      let fill_size := min remaining level.size
      fillLoop rest (remaining - fill_size) (total_cost + fill_size * level.price)
        level.price

/-- `calculate_fill_price` (src/orderbook/aggregator.rs lines 13-60):
walk the ask side to fill `target_size`, returning VWAP, worst and
best price, or an error when the size is invalid or liquidity runs
out. -/
def calculate_fill_price (asks : List PriceLevel) (target_size : ℚ) :
    Except ArbitrageError FillInfo :=
  if target_size ≤ 0 then .error (.InvalidSize target_size)
  else if asks.isEmpty then .error (.InsufficientLiquidity target_size 0)
  else
    let r := fillLoop asks target_size 0 0
    if r.1 ≠ 0 then .error (.InsufficientLiquidity target_size (target_size - r.1))
    else .ok
      { filled_size := target_size
        total_cost := r.2.1
        vwap := r.2.1 / target_size
        worst_price := r.2.2
        best_price := asks.head?.map PriceLevel.price }

/-- The list of `(consumed, price)` pairs the fill walk takes: at each
level, while the remaining target is nonzero, `min(remaining,
level.size)` is consumed at `level.price`.  Mirrors the spec's
description of the walk and is compared against the code's
accumulated totals. -/
def consumedFills (asks : List PriceLevel) (remaining : ℚ) : List (ℚ × ℚ) :=
  match asks with
  | [] => []
  | level :: rest =>
    if remaining = 0 then []
    else
      let fill_size := min remaining level.size
      (fill_size, level.price) :: consumedFills rest (remaining - fill_size)

/-- Market outcome (src/market/types.rs, `Outcome`). -/
inductive Outcome where
  | Up
  | Down
deriving DecidableEq

/-- Market information (src/market/types.rs, `Market`). -/
structure Market where
  slug : String
  id : String
  up_token_id : String
  down_token_id : String
  start_timestamp : ℤ
  end_timestamp : ℤ
  question : Option String
deriving DecidableEq

/-- L2 order book for one outcome (src/orderbook/types.rs,
`OutcomeBook`); `updated_at` is a unix timestamp. -/
structure OutcomeBook where
  token_id : String
  outcome : Outcome
  bids : List PriceLevel
  asks : List PriceLevel
  updated_at : ℤ
deriving DecidableEq

/-- `OutcomeBook::best_bid`. -/
def OutcomeBook.best_bid (b : OutcomeBook) : Option ℚ :=
  b.bids.head?.map PriceLevel.price

/-- `OutcomeBook::best_ask`. -/
def OutcomeBook.best_ask (b : OutcomeBook) : Option ℚ :=
  b.asks.head?.map PriceLevel.price

/-- `OutcomeBook::is_inverted` (src/orderbook/types.rs lines 82-87):
true only when both a best bid and a best ask exist and the ask is
below the bid. -/
def OutcomeBook.is_inverted (b : OutcomeBook) : Bool :=
  match b.best_bid, b.best_ask with
  | some bid, some ask => decide (ask < bid)
  | _, _ => false

/-- `OutcomeBook::total_ask_liquidity`. -/
def OutcomeBook.total_ask_liquidity (b : OutcomeBook) : ℚ :=
  (b.asks.map PriceLevel.size).sum

/-- A detected arbitrage opportunity (src/arbitrage/calculator.rs,
`ArbitrageOpportunity`); `detected_at` is the detection timestamp. -/
structure ArbitrageOpportunity where
  market : Market
  up_price : ℚ
  down_price : ℚ
  total_cost : ℚ
  profit_per_share : ℚ
  profit_pct : ℚ
  order_size : ℚ
  total_investment : ℚ
  expected_payout : ℚ
  expected_profit : ℚ
  best_ask_up : Option ℚ
  best_ask_down : Option ℚ
  vwap_up : Option ℚ
  vwap_down : Option ℚ
  detected_at : ℤ
deriving DecidableEq

/-- `calculate_opportunity` (src/arbitrage/calculator.rs lines
56-105).  The wall clock read for `detected_at` is passed in as
`now`. -/
def calculate_opportunity (now : ℤ) (market : Market)
    (up_book down_book : OutcomeBook) (target_size threshold : ℚ) :
    Option ArbitrageOpportunity :=
  match calculate_fill_price up_book.asks target_size,
      calculate_fill_price down_book.asks target_size with
  | .ok up_fill, .ok down_fill =>
    let up_price := up_fill.worst_price
    let down_price := down_fill.worst_price
    let total_cost := up_price + down_price
    if threshold < total_cost then none
    else
      let profit_per_share := 1 - total_cost
      let profit_pct :=
        if 0 < total_cost then profit_per_share / total_cost * 100 else 0
      let total_investment := total_cost * target_size
      let expected_payout := target_size
      let expected_profit := expected_payout - total_investment
      some
        { market := market
          up_price := up_price
          down_price := down_price
          total_cost := total_cost
          profit_per_share := profit_per_share
          profit_pct := profit_pct
          order_size := target_size
          total_investment := total_investment
          expected_payout := expected_payout
          expected_profit := expected_profit
          best_ask_up := up_fill.best_price
          best_ask_down := down_fill.best_price
          vwap_up := some up_fill.vwap
          vwap_down := some down_fill.vwap
          detected_at := now }
  | _, _ => none

/-- The configuration options read by the detection and execution path
(src/config.rs, `Config`); credential, URL and logging fields are not
consulted by the embedded functions and are omitted. -/
structure Config where
  target_pair_cost : ℚ
  order_size : ℚ
  balance_margin : ℚ
  dry_run : Bool
  sim_balance : ℚ
  cooldown_seconds : ℕ
deriving DecidableEq

/-- `check_arbitrage` (src/arbitrage/detector.rs lines 14-86):
reject inverted books, return `Ok(None)` when either ask side is
empty, otherwise delegate to `calculate_opportunity` with the
configured size and threshold. -/
def check_arbitrage (now : ℤ) (market : Market)
    (up_book down_book : OutcomeBook) (config : Config) :
    Except ArbitrageError (Option ArbitrageOpportunity) :=
  if up_book.is_inverted then
    .error (.BookInverted "UP" (up_book.best_ask.getD 0) (up_book.best_bid.getD 0))
  else if down_book.is_inverted then
    .error (.BookInverted "DOWN" (down_book.best_ask.getD 0)
      (down_book.best_bid.getD 0))
  else if up_book.asks.isEmpty || down_book.asks.isEmpty then .ok none
  else
    .ok (calculate_opportunity now market up_book down_book config.order_size
      config.target_pair_cost)

/-- Result of attempting an execution (src/arbitrage/executor.rs,
`ExecutionResult`). -/
inductive ExecutionResult where
  | BothFilled (up_order_id down_order_id : String)
      (up_filled_size down_filled_size actual_investment : ℚ)
  | PartialFill (filled_leg : Outcome) (filled_size : ℚ)
      (unwind_attempted : Bool) (unwind_result : Option String)
  | NeitherFilled
  | Simulated (would_invest would_profit : ℚ)
  | CooldownActive (remaining_seconds : ℕ)
  | InsufficientBalance (required available : ℚ)
deriving DecidableEq

/-- The order-state fields the executor reads after a fill-wait
(src/trading/execution.rs, `OrderState`): whether the order counts as
filled, and the filled size when the venue reported one. -/
structure OrderState where
  is_filled : Bool
  filled_size : Option ℚ
deriving DecidableEq

/-- Executor state (src/arbitrage/executor.rs, `ArbitrageExecutor`);
`last_execution` holds the instant of the last execution attempt in
seconds. -/
structure ArbitrageExecutor where
  last_execution : Option ℕ
  cooldown_seconds : ℕ
  trades_executed : ℕ
  opportunities_found : ℕ
  total_invested : ℚ
  total_shares_bought : ℚ
  sim_balance : ℚ
  sim_start_balance : ℚ
deriving DecidableEq

/-- `ArbitrageExecutor::new` (src/arbitrage/executor.rs lines 89-102). -/
def ArbitrageExecutor.new (config : Config) : ArbitrageExecutor :=
  { last_execution := none
    cooldown_seconds := config.cooldown_seconds
    trades_executed := 0
    opportunities_found := 0
    total_invested := 0
    total_shares_bought := 0
    sim_balance := config.sim_balance
    sim_start_balance := config.sim_balance }

/-- `ArbitrageExecutor::is_cooldown_active` (src/arbitrage/executor.rs
lines 104-111): `last.elapsed().as_secs() < cooldown_seconds`. -/
def ArbitrageExecutor.is_cooldown_active (e : ArbitrageExecutor) (now : ℕ) : Bool :=
  match e.last_execution with
  | some last => decide (now - last < e.cooldown_seconds)
  | none => false

/-- `ArbitrageExecutor::cooldown_remaining` (src/arbitrage/executor.rs
lines 113-125). -/
def ArbitrageExecutor.cooldown_remaining (e : ArbitrageExecutor) (now : ℕ) : ℕ :=
  match e.last_execution with
  | some last =>
    if now - last < e.cooldown_seconds then e.cooldown_seconds - (now - last) else 0
  | none => 0

/-- `ArbitrageExecutor::execute_simulated` (src/arbitrage/executor.rs
lines 179-214): balance-check the simulated balance, then deduct the
investment and update the cumulative counters. -/
def ArbitrageExecutor.execute_simulated (e : ArbitrageExecutor)
    (opportunity : ArbitrageOpportunity) : ExecutionResult × ArbitrageExecutor :=
  if e.sim_balance < opportunity.total_investment then
    (.InsufficientBalance opportunity.total_investment e.sim_balance, e)
  else
    (.Simulated opportunity.total_investment opportunity.expected_profit,
      { e with
        sim_balance := e.sim_balance - opportunity.total_investment
        total_invested := e.total_invested + opportunity.total_investment
        total_shares_bought := e.total_shares_bought + opportunity.order_size * 2
        trades_executed := e.trades_executed + 1 })

/-- `ArbitrageExecutor::execute_real` (src/arbitrage/executor.rs lines
217-421).  The venue interactions are inputs: the two concurrent
submission results, the two terminal order states from the fill-waits,
and the unwind outcome string produced by `attempt_unwind` for each
leg.  Cancellations have no effect on executor state. -/
def ArbitrageExecutor.execute_real (e : ArbitrageExecutor)
    (opportunity : ArbitrageOpportunity)
    (up_submit down_submit : Except TradingError String)
    (up_state down_state : OrderState)
    (up_unwind down_unwind : Option String) :
    ExecutionResult × ArbitrageExecutor :=
  match up_submit, down_submit with
  | .ok up_order_id, .ok down_order_id =>
    match up_state.is_filled, down_state.is_filled with
    | true, true =>
      let up_filled_size := up_state.filled_size.getD opportunity.order_size
      let down_filled_size := down_state.filled_size.getD opportunity.order_size
      let actual_investment :=
        up_filled_size * opportunity.up_price +
          down_filled_size * opportunity.down_price
      (.BothFilled up_order_id down_order_id up_filled_size down_filled_size
          actual_investment,
        { e with
          trades_executed := e.trades_executed + 1
          total_invested := e.total_invested + actual_investment
          total_shares_bought :=
            e.total_shares_bought + up_filled_size + down_filled_size })
    | true, false =>
      let filled_size := up_state.filled_size.getD opportunity.order_size
      (.PartialFill .Up filled_size true up_unwind, e)
    | false, true =>
      let filled_size := down_state.filled_size.getD opportunity.order_size
      (.PartialFill .Down filled_size true down_unwind, e)
    | false, false => (.NeitherFilled, e)
  | .ok _, .error _ => (.NeitherFilled, e)
  | .error _, .ok _ => (.NeitherFilled, e)
  | .error _, .error _ => (.NeitherFilled, e)

/-- `ArbitrageExecutor::execute` (src/arbitrage/executor.rs lines
129-176): count the opportunity, apply the cooldown guard, stamp
`last_execution`, then branch to simulation or to the balance guard
and real execution.  `balance_result` is the outcome of
`client.get_balance()`; the remaining oracle arguments feed
`execute_real`.  The executor state is returned alongside the result
even when the balance fetch fails, as the Rust method mutates
`&mut self` before propagating that error. -/
def ArbitrageExecutor.execute (e : ArbitrageExecutor) (now : ℕ) (config : Config)
    (opportunity : ArbitrageOpportunity)
    (balance_result : Except TradingError ℚ)
    (up_submit down_submit : Except TradingError String)
    (up_state down_state : OrderState)
    (up_unwind down_unwind : Option String) :
    Except TradingError ExecutionResult × ArbitrageExecutor :=
  let e1 := { e with opportunities_found := e.opportunities_found + 1 }
  if e1.is_cooldown_active now then
    (.ok (.CooldownActive (e1.cooldown_remaining now)), e1)
  else
    let e2 := { e1 with last_execution := some now }
    if config.dry_run then
      let r := e2.execute_simulated opportunity
      (.ok r.1, r.2)
    else
      match balance_result with
      | .error err => (.error err, e2)
      | .ok balance =>
        let required := opportunity.total_investment * config.balance_margin
        if balance < required then
          (.ok (.InsufficientBalance required balance), e2)
        else
          let r := e2.execute_real opportunity up_submit down_submit up_state
            down_state up_unwind down_unwind
          (.ok r.1, r.2)

/-- A price level arriving on the feed (src/orderbook/websocket.rs,
`WsLevel`): price and size are decimal strings; each field is modelled
by the result of its `parse::<Decimal>()`, `none` when unparseable. -/
structure WsLevel where
  price : Option ℚ
  size : Option ℚ
deriving DecidableEq

/-- A price-change delta arriving on the feed
(src/orderbook/websocket.rs, `WsPriceChange`); price and size are
modelled by their parse results. -/
structure WsPriceChange where
  asset_id : Option String
  price : Option ℚ
  size : Option ℚ
  side : String
  hash : Option String
deriving DecidableEq

/-- Lookup in a price→size association map (the `HashMap<Decimal,
Decimal>` of `L2BookState`, observed through `get`). -/
def mapLookup : List (ℚ × ℚ) → ℚ → Option ℚ
  | [], _ => none
  | e :: rest, p => if e.1 = p then some e.2 else mapLookup rest p

/-- `HashMap::remove` on the price→size map. -/
def mapRemove : List (ℚ × ℚ) → ℚ → List (ℚ × ℚ)
  | [], _ => []
  | e :: rest, p => if e.1 = p then mapRemove rest p else e :: mapRemove rest p

/-- `HashMap::insert` on the price→size map (overwrites an existing
key). -/
def mapInsert (m : List (ℚ × ℚ)) (p s : ℚ) : List (ℚ × ℚ) :=
  (p, s) :: mapRemove m p

/-- L2 book state fed by the websocket (src/orderbook/websocket.rs,
`L2BookState`); the two hash maps are modelled as association lists. -/
structure L2BookState where
  bids : List (ℚ × ℚ)
  asks : List (ℚ × ℚ)
  last_timestamp_ms : Option ℤ
  last_hash : Option String
deriving DecidableEq

/-- The empty book state (`L2BookState::default()`). -/
def L2BookState.empty : L2BookState :=
  { bids := [], asks := [], last_timestamp_ms := none, last_hash := none }

/-- The insertion loop of `apply_snapshot`: skip unparseable levels,
insert only positive sizes. -/
def snapshotInsert (m : List (ℚ × ℚ)) (levels : List WsLevel) : List (ℚ × ℚ) :=
  levels.foldl
    (fun acc level =>
      match level.price, level.size with
      | some price, some size => if 0 < size then mapInsert acc price size else acc
      | _, _ => acc)
    m

/-- `L2BookState::apply_snapshot` (src/orderbook/websocket.rs lines
40-59): clear both maps and insert the positive-size levels. -/
def L2BookState.apply_snapshot (st : L2BookState) (bids asks : List WsLevel) :
    L2BookState :=
  { st with bids := snapshotInsert [] bids, asks := snapshotInsert [] asks }

/-- `str::to_uppercase()` on the side strings, which are ASCII:
uppercase each character. -/
def strToUpper (s : String) : String := String.mk (s.data.map Char.toUpper)

/-- `L2BookState::apply_delta` (src/orderbook/websocket.rs lines
62-87): return unchanged on a parse failure; pick the side by the
uppercased side string, returning unchanged on any other side; then
remove the key when the size is nonpositive, insert otherwise, and
record the hash when one is present. -/
def L2BookState.apply_delta (st : L2BookState) (change : WsPriceChange) :
    L2BookState :=
  match change.price, change.size with
  | some price, some size =>
    if strToUpper change.side = "BUY" then
      let st1 :=
        if size ≤ 0 then { st with bids := mapRemove st.bids price }
        else { st with bids := mapInsert st.bids price size }
      match change.hash with
      | some h => { st1 with last_hash := some h }
      | none => st1
    else if strToUpper change.side = "SELL" then
      let st1 :=
        if size ≤ 0 then { st with asks := mapRemove st.asks price }
        else { st with asks := mapInsert st.asks price size }
      match change.hash with
      | some h => { st1 with last_hash := some h }
      | none => st1
    else st
  | _, _ => st

/-- One operation on the book state: a snapshot or a delta. -/
inductive BookOp where
  | snapshot (bids asks : List WsLevel)
  | delta (change : WsPriceChange)
deriving DecidableEq

/-- Replay a sequence of operations through the code's `L2BookState`. -/
def replayState (ops : List BookOp) (st : L2BookState) : L2BookState :=
  ops.foldl
    (fun s op =>
      match op with
      | .snapshot bids asks => s.apply_snapshot bids asks
      | .delta change => s.apply_delta change)
    st

/-- The reference dictionary of the specification: a pair of partial
maps price → size. -/
structure RefBook where
  bids : ℚ → Option ℚ
  asks : ℚ → Option ℚ

/-- The empty reference dictionary. -/
def RefBook.empty : RefBook := { bids := fun _ => none, asks := fun _ => none }

/-- Insert into a reference map. -/
def refInsert (f : ℚ → Option ℚ) (p s : ℚ) : ℚ → Option ℚ :=
  fun q => if q = p then some s else f q

/-- Delete from a reference map. -/
def refDelete (f : ℚ → Option ℚ) (p : ℚ) : ℚ → Option ℚ :=
  fun q => if q = p then none else f q

/-- Snapshot replay into a reference map: insert only the parseable,
positive-size levels. -/
def refSnapshotInsert (f : ℚ → Option ℚ) (levels : List WsLevel) :
    ℚ → Option ℚ :=
  levels.foldl
    (fun acc level =>
      match level.price, level.size with
      | some price, some size => if 0 < size then refInsert acc price size else acc
      | _, _ => acc)
    f

/-- Modelled from the spec (claim C7's reference dictionary, spec §8
and §4.2): a snapshot clears and inserts only positive-size levels; a
delta with `size ≤ 0` deletes the key, a delta with `size > 0` inserts
or overwrites it, and a delta with side other than `BUY`/`SELL` leaves
the state unchanged.  The side comparison is literal, as the spec
names only the exact values `BUY` and `SELL`. -/
def refApply (r : RefBook) (op : BookOp) : RefBook :=
  match op with
  | .snapshot bids asks =>
    { bids := refSnapshotInsert (fun _ => none) bids
      asks := refSnapshotInsert (fun _ => none) asks }
  | .delta change =>
    match change.price, change.size with
    | some price, some size =>
      if change.side = "BUY" then
        if size ≤ 0 then { r with bids := refDelete r.bids price }
        else { r with bids := refInsert r.bids price size }
      else if change.side = "SELL" then
        if size ≤ 0 then { r with asks := refDelete r.asks price }
        else { r with asks := refInsert r.asks price size }
      else r
    | _, _ => r

/-- Replay a sequence of operations into the claim's reference
dictionary. -/
def refReplay (ops : List BookOp) (r : RefBook) : RefBook :=
  ops.foldl refApply r

/-- The reference dictionary with the side comparison performed on the
uppercased side string, as `apply_delta` does. -/
def refApplyUpper (r : RefBook) (op : BookOp) : RefBook :=
  match op with
  | .snapshot bids asks =>
    { bids := refSnapshotInsert (fun _ => none) bids
      asks := refSnapshotInsert (fun _ => none) asks }
  | .delta change =>
    match change.price, change.size with
    | some price, some size =>
      if strToUpper change.side = "BUY" then
        if size ≤ 0 then { r with bids := refDelete r.bids price }
        else { r with bids := refInsert r.bids price size }
      else if strToUpper change.side = "SELL" then
        if size ≤ 0 then { r with asks := refDelete r.asks price }
        else { r with asks := refInsert r.asks price size }
      else r
    | _, _ => r

/-- Replay into the case-insensitive reference dictionary. -/
def refReplayUpper (ops : List BookOp) (r : RefBook) : RefBook :=
  ops.foldl refApplyUpper r

/-- Remove zero-size entries from a reference map (the comparison in
the claim is taken after this removal). -/
def refClean (f : ℚ → Option ℚ) : ℚ → Option ℚ :=
  fun q =>
    match f q with
    | some s => if s = 0 then none else some s
    | none => none

/-- The market used by the concrete test scenarios
(src/arbitrage/calculator.rs tests). -/
def sampleMarket : Market :=
  { slug := "btc-updown-15m-123"
    id := "market-id"
    up_token_id := "up-token"
    down_token_id := "down-token"
    start_timestamp := 0
    end_timestamp := 900
    question := none }

/-- UP book of the profitable-opportunity scenario: one ask at 0.48
for 100 shares. -/
def sampleUpBook : OutcomeBook :=
  { token_id := "up-token"
    outcome := .Up
    bids := []
    asks := [⟨48/100, 100⟩]
    updated_at := 0 }

/-- DOWN book of the profitable-opportunity scenario: one ask at 0.51
for 100 shares. -/
def sampleDownBook : OutcomeBook :=
  { token_id := "down-token"
    outcome := .Down
    bids := []
    asks := [⟨51/100, 100⟩]
    updated_at := 0 }

/-- An inverted UP book: best bid 0.52, best ask 0.50. -/
def sampleInvertedBook : OutcomeBook :=
  { token_id := "up-token"
    outcome := .Up
    bids := [⟨52/100, 50⟩]
    asks := [⟨1/2, 50⟩]
    updated_at := 0 }

/-- A one-sided book with bids but no asks. -/
def sampleNoAskBook : OutcomeBook :=
  { token_id := "up-token"
    outcome := .Up
    bids := [⟨48/100, 50⟩]
    asks := []
    updated_at := 0 }

/-- The configuration of the test scenarios: threshold 0.991, size
10, margin 1.2, dry-run with a simulated balance of 100 and a 10 s
cooldown. -/
def sampleConfig : Config :=
  { target_pair_cost := 991/1000
    order_size := 10
    balance_margin := 12/10
    dry_run := true
    sim_balance := 100
    cooldown_seconds := 10 }

/-- The opportunity the detector produces on the profitable scenario:
total cost 0.99, investment 9.9, payout 10, profit 0.1. -/
def sampleDetected : ArbitrageOpportunity :=
  { market := sampleMarket
    up_price := 48/100
    down_price := 51/100
    total_cost := 99/100
    profit_per_share := 1/100
    profit_pct := 100/99
    order_size := 10
    total_investment := 99/10
    expected_payout := 10
    expected_profit := 1/10
    best_ask_up := some (48/100)
    best_ask_down := some (51/100)
    vwap_up := some (48/100)
    vwap_down := some (51/100)
    detected_at := 0 }

/-- An executor whose last execution happened at second 100, with a
10-second cooldown. -/
def sampleCoolingExecutor : ArbitrageExecutor :=
  { ArbitrageExecutor.new sampleConfig with last_execution := some 100 }

/-- The default value of the optional last element of a cons shifts to
the head. -/
theorem getLastD_cons {α : Type} : ∀ (l : List α) (a w : α),
    (a :: l).getLast?.getD w = l.getLast?.getD a := by
  intro l
  induction l with
  | nil => intro a w; rfl
  | cons b t ih =>
    intro a w
    rw [List.getLast?_cons_cons, ih b w, ih b a]

/-- Stopping the walk at a zero remaining target. -/
theorem fillLoop_zero (asks : List PriceLevel) (c w : ℚ) :
    fillLoop asks 0 c w = (0, c, w) := by
  cases asks <;> simp [fillLoop]

/-- The remaining target after the walk is the initial target minus
the total consumed quantity. -/
theorem fillLoop_rem_eq (asks : List PriceLevel) : ∀ (r c w : ℚ),
    (fillLoop asks r c w).1 = r - ((consumedFills asks r).map Prod.fst).sum := by
  induction asks with
  | nil => intro r c w; simp [fillLoop, consumedFills]
  | cons level rest ih =>
    intro r c w
    by_cases hr : r = 0
    · simp [fillLoop, consumedFills, hr]
    · simp only [fillLoop, consumedFills, if_neg hr]
      rw [ih]
      simp only [List.map_cons, List.sum_cons]
      ring

/-- The accumulated cost after the walk is the initial accumulator
plus the consumed quantities priced at their levels. -/
theorem fillLoop_cost_eq (asks : List PriceLevel) : ∀ (r c w : ℚ),
    (fillLoop asks r c w).2.1 =
      c + ((consumedFills asks r).map (fun q => q.1 * q.2)).sum := by
  induction asks with
  | nil => intro r c w; simp [fillLoop, consumedFills]
  | cons level rest ih =>
    intro r c w
    by_cases hr : r = 0
    · simp [fillLoop, consumedFills, hr]
    · simp only [fillLoop, consumedFills, if_neg hr]
      rw [ih]
      simp only [List.map_cons, List.sum_cons]
      ring

/-- The tracked worst price after the walk is the price of the last
consumed level, defaulting to the initial accumulator when nothing was
consumed. -/
theorem fillLoop_worst_eq (asks : List PriceLevel) : ∀ (r c w : ℚ),
    (fillLoop asks r c w).2.2 =
      (((consumedFills asks r).map Prod.snd).getLast?).getD w := by
  induction asks with
  | nil => intro r c w; simp [fillLoop, consumedFills]
  | cons level rest ih =>
    intro r c w
    by_cases hr : r = 0
    · simp [fillLoop, consumedFills, hr]
    · simp only [fillLoop, consumedFills, if_neg hr]
      rw [ih]
      simp only [List.map_cons]
      rw [getLastD_cons]

/-- The remaining target never becomes negative. -/
theorem fillLoop_rem_nonneg (asks : List PriceLevel) : ∀ (r c w : ℚ),
    0 ≤ r → 0 ≤ (fillLoop asks r c w).1 := by
  induction asks with
  | nil => intro r c w hr; simpa [fillLoop] using hr
  | cons level rest ih =>
    intro r c w hr
    by_cases hz : r = 0
    · simp [fillLoop, hz]
    · simp only [fillLoop, if_neg hz]
      exact ih _ _ _ (by simp [sub_nonneg, min_le_left])

/-- With nonnegative sizes, total consumption is bounded by the total
liquidity of the side. -/
theorem consumedFills_sum_le (asks : List PriceLevel) : ∀ (r : ℚ),
    (∀ l ∈ asks, 0 ≤ l.size) →
    ((consumedFills asks r).map Prod.fst).sum ≤ (asks.map PriceLevel.size).sum := by
  induction asks with
  | nil => intro r _; simp [consumedFills]
  | cons level rest ih =>
    intro r hsz
    by_cases hz : r = 0
    · simp only [consumedFills, if_pos hz, List.map_nil, List.sum_nil,
        List.map_cons, List.sum_cons]
      have : 0 ≤ (rest.map PriceLevel.size).sum := by
        apply List.sum_nonneg
        intro x hx
        obtain ⟨l, hl, rfl⟩ := List.mem_map.mp hx
        exact hsz l (List.mem_cons_of_mem _ hl)
      have hs0 : 0 ≤ level.size := hsz level (List.mem_cons_self _ _)
      linarith
    · simp only [consumedFills, if_neg hz, List.map_cons, List.sum_cons]
      have h1 : min r level.size ≤ level.size := min_le_right _ _
      have h2 := ih (r - min r level.size)
        (fun l hl => hsz l (List.mem_cons_of_mem _ hl))
      linarith

/-- When the side holds at least the target in liquidity, the walk
exhausts the target. -/
theorem fillLoop_rem_zero_of_liq (asks : List PriceLevel) : ∀ (r c w : ℚ),
    (∀ l ∈ asks, 0 ≤ l.size) → 0 ≤ r →
    r ≤ (asks.map PriceLevel.size).sum → (fillLoop asks r c w).1 = 0 := by
  induction asks with
  | nil =>
    intro r c w _ hr0 hle
    simp only [List.map_nil, List.sum_nil] at hle
    simp [fillLoop, le_antisymm hle hr0]
  | cons level rest ih =>
    intro r c w hsz hr0 hle
    by_cases hz : r = 0
    · simp [fillLoop, hz]
    · simp only [fillLoop, if_neg hz]
      rcases le_total r level.size with hc | hc
      · rw [min_eq_left hc, sub_self, fillLoop_zero]
      · rw [min_eq_right hc]
        apply ih _ _ _ (fun l hl => hsz l (List.mem_cons_of_mem _ hl))
        · linarith
        · simp only [List.map_cons, List.sum_cons] at hle
          linarith

/-- Lower bound on the accumulated cost: every consumed unit costs at
least `lo` when every level prices at least `lo`. -/
theorem fillLoop_cost_lower (lo : ℚ) (asks : List PriceLevel) : ∀ (r c w : ℚ),
    (∀ l ∈ asks, lo ≤ l.price) → (∀ l ∈ asks, 0 ≤ l.size) → 0 ≤ r →
    c + lo * (r - (fillLoop asks r c w).1) ≤ (fillLoop asks r c w).2.1 := by
  induction asks with
  | nil => intro r c w _ _ _; simp [fillLoop]
  | cons level rest ih =>
    intro r c w hlo hsz hr0
    by_cases hz : r = 0
    · simp [fillLoop, hz]
    · simp only [fillLoop, if_neg hz]
      have hrpos : 0 < r := lt_of_le_of_ne hr0 (Ne.symm hz)
      have hfs : 0 ≤ min r level.size :=
        le_min hrpos.le (hsz level (List.mem_cons_self _ _))
      have hlp : lo ≤ level.price := hlo level (List.mem_cons_self _ _)
      have hmul : lo * min r level.size ≤ level.price * min r level.size :=
        mul_le_mul_of_nonneg_right hlp hfs
      have hrec := ih (r - min r level.size)
        (c + min r level.size * level.price) level.price
        (fun l hl => hlo l (List.mem_cons_of_mem _ hl))
        (fun l hl => hsz l (List.mem_cons_of_mem _ hl))
        (by simp [sub_nonneg, min_le_left])
      set res := fillLoop rest (r - min r level.size)
        (c + min r level.size * level.price) level.price with hres
      have hexp : lo * (r - res.1) =
          lo * min r level.size + lo * ((r - min r level.size) - res.1) := by ring
      linarith

/-- The worst price tracked by the walk never falls below the initial
tracker when every level prices at least it. -/
theorem fillLoop_worst_ge (asks : List PriceLevel) : ∀ (r c w : ℚ),
    asks.Pairwise (fun a b => a.price ≤ b.price) →
    (∀ l ∈ asks, w ≤ l.price) → w ≤ (fillLoop asks r c w).2.2 := by
  induction asks with
  | nil => intro r c w _ _; simp [fillLoop]
  | cons level rest ih =>
    intro r c w hsort hw
    by_cases hz : r = 0
    · simp [fillLoop, hz]
    · simp only [fillLoop, if_neg hz]
      obtain ⟨hhead, htail⟩ := List.pairwise_cons.mp hsort
      have h1 : level.price ≤
          (fillLoop rest (r - min r level.size)
            (c + min r level.size * level.price) level.price).2.2 :=
        ih _ _ _ htail hhead
      exact le_trans (hw level (List.mem_cons_self _ _)) h1

/-- Upper bound on the accumulated cost: with an ascending side, every
consumed unit costs at most the final worst price. -/
theorem fillLoop_cost_upper (asks : List PriceLevel) : ∀ (r c w : ℚ),
    asks.Pairwise (fun a b => a.price ≤ b.price) →
    (∀ l ∈ asks, 0 ≤ l.size) → 0 ≤ r →
    (fillLoop asks r c w).2.1 ≤
      c + (fillLoop asks r c w).2.2 * (r - (fillLoop asks r c w).1) := by
  induction asks with
  | nil => intro r c w _ _ _; simp [fillLoop]
  | cons level rest ih =>
    intro r c w hsort hsz hr0
    by_cases hz : r = 0
    · simp [fillLoop, hz]
    · simp only [fillLoop, if_neg hz]
      have hrpos : 0 < r := lt_of_le_of_ne hr0 (Ne.symm hz)
      have hfs : 0 ≤ min r level.size :=
        le_min hrpos.le (hsz level (List.mem_cons_self _ _))
      obtain ⟨hhead, htail⟩ := List.pairwise_cons.mp hsort
      have hrec := ih (r - min r level.size)
        (c + min r level.size * level.price) level.price htail
        (fun l hl => hsz l (List.mem_cons_of_mem _ hl))
        (by simp [sub_nonneg, min_le_left])
      have hwf : level.price ≤
          (fillLoop rest (r - min r level.size)
            (c + min r level.size * level.price) level.price).2.2 :=
        fillLoop_worst_ge rest _ _ _ htail hhead
      set res := fillLoop rest (r - min r level.size)
        (c + min r level.size * level.price) level.price with hres
      have hmul : min r level.size * level.price ≤ min r level.size * res.2.2 :=
        mul_le_mul_of_nonneg_left hwf hfs
      have hexp : res.2.2 * (r - res.1) =
          min r level.size * res.2.2 + res.2.2 * ((r - min r level.size) - res.1) := by
        ring
      linarith

/-- Unfolding of `calculate_fill_price` through its internal let
binding. -/
theorem calculate_fill_price_eq (asks : List PriceLevel) (target_size : ℚ) :
    calculate_fill_price asks target_size =
      if target_size ≤ 0 then .error (.InvalidSize target_size)
      else if asks.isEmpty then .error (.InsufficientLiquidity target_size 0)
      else if (fillLoop asks target_size 0 0).1 ≠ 0 then
        .error (.InsufficientLiquidity target_size
          (target_size - (fillLoop asks target_size 0 0).1))
      else .ok
        { filled_size := target_size
          total_cost := (fillLoop asks target_size 0 0).2.1
          vwap := (fillLoop asks target_size 0 0).2.1 / target_size
          worst_price := (fillLoop asks target_size 0 0).2.2
          best_price := asks.head?.map PriceLevel.price } := rfl

/-- Claim C2: for an ascending ask side with positive sizes and total
liquidity at least the target `T > 0`, the fill walk succeeds with
`filled_size = T`, total cost the sum of `min(remaining, size) ×
price` over the consumed levels, worst price the last consumed level's
price, best price the first level's price, and `vwap = total_cost / T`
with `vwap × T = total_cost` and `best_price ≤ vwap ≤ worst_price`. -/
theorem c2_fill_walk (asks : List PriceLevel) (T : ℚ)
    (hT : 0 < T)
    (hsorted : asks.Pairwise (fun a b => a.price ≤ b.price))
    (hpos : ∀ l ∈ asks, 0 < l.size)
    (hliq : T ≤ (asks.map PriceLevel.size).sum) :
    ∃ info : FillInfo,
      calculate_fill_price asks T = .ok info ∧
      info.filled_size = T ∧
      info.total_cost = ((consumedFills asks T).map (fun q => q.1 * q.2)).sum ∧
      ((consumedFills asks T).map Prod.snd).getLast? = some info.worst_price ∧
      info.best_price = asks.head?.map PriceLevel.price ∧
      info.vwap = info.total_cost / T ∧
      info.vwap * T = info.total_cost ∧
      (∃ b, info.best_price = some b ∧ b ≤ info.vwap) ∧
      info.vwap ≤ info.worst_price := by
  cases asks with
  | nil =>
    exfalso
    simp only [List.map_nil, List.sum_nil] at hliq
    linarith
  | cons a0 rest0 =>
    have hsz : ∀ l ∈ a0 :: rest0, 0 ≤ l.size := fun l hl => (hpos l hl).le
    have hrem : (fillLoop (a0 :: rest0) T 0 0).1 = 0 :=
      fillLoop_rem_zero_of_liq _ T 0 0 hsz hT.le hliq
    have hconsum : ((consumedFills (a0 :: rest0) T).map Prod.fst).sum = T := by
      have h := fillLoop_rem_eq (a0 :: rest0) T 0 0
      rw [hrem] at h
      linarith
    have hcost : (fillLoop (a0 :: rest0) T 0 0).2.1 =
        ((consumedFills (a0 :: rest0) T).map (fun q => q.1 * q.2)).sum := by
      simpa using fillLoop_cost_eq (a0 :: rest0) T 0 0
    have hcne : (consumedFills (a0 :: rest0) T).map Prod.snd ≠ [] := by
      intro h
      have h2 : consumedFills (a0 :: rest0) T = [] := by
        simpa using h
      rw [h2] at hconsum
      simp at hconsum
      exact absurd hconsum.symm (ne_of_gt hT)
    obtain ⟨x, hx⟩ := Option.isSome_iff_exists.mp
      (List.getLast?_isSome.mpr hcne)
    have hworst : (fillLoop (a0 :: rest0) T 0 0).2.2 = x := by
      have h := fillLoop_worst_eq (a0 :: rest0) T 0 0
      rw [hx] at h
      simpa using h
    have hcalc : calculate_fill_price (a0 :: rest0) T = .ok
        { filled_size := T
          total_cost := (fillLoop (a0 :: rest0) T 0 0).2.1
          vwap := (fillLoop (a0 :: rest0) T 0 0).2.1 / T
          worst_price := (fillLoop (a0 :: rest0) T 0 0).2.2
          best_price := ((a0 :: rest0).head?.map PriceLevel.price) } := by
      rw [calculate_fill_price_eq]
      rw [if_neg (not_le.mpr hT)]
      rw [if_neg (by simp)]
      rw [if_neg (not_ne_iff.mpr hrem)]
    have hlo : ∀ l ∈ a0 :: rest0, a0.price ≤ l.price := by
      intro l hl
      rcases List.mem_cons.mp hl with h | h
      · rw [h]
      · exact (List.pairwise_cons.mp hsorted).1 l h
    have hlow := fillLoop_cost_lower a0.price (a0 :: rest0) T 0 0 hlo hsz hT.le
    rw [hrem] at hlow
    simp only [sub_zero, zero_add] at hlow
    have hup := fillLoop_cost_upper (a0 :: rest0) T 0 0 hsorted hsz hT.le
    rw [hrem] at hup
    simp only [sub_zero, zero_add] at hup
    refine ⟨_, hcalc, rfl, hcost, ?_, rfl, rfl, ?_, ?_, ?_⟩
    · rw [hx, hworst]
    · exact div_mul_cancel₀ _ (ne_of_gt hT)
    · exact ⟨a0.price, by simp, (le_div_iff₀ hT).mpr hlow⟩
    · exact (div_le_iff₀ hT).mpr hup

/-- Claim C3: the fill walk fails with `InvalidSize` for every target
`T ≤ 0`, and for `T > 0` exceeding the side's total liquidity
(including an empty side) it fails with `InsufficientLiquidity` whose
`required` is `T` and whose `available` is the quantity the walk could
consume, which is strictly less than `T`. -/
theorem c3_fill_walk_failures (asks : List PriceLevel) (T : ℚ)
    (hpos : ∀ l ∈ asks, 0 < l.size) :
    (T ≤ 0 → calculate_fill_price asks T = .error (.InvalidSize T)) ∧
    (0 < T → (asks.map PriceLevel.size).sum < T →
      ∃ available,
        calculate_fill_price asks T =
          .error (.InsufficientLiquidity T available) ∧
        available = ((consumedFills asks T).map Prod.fst).sum ∧
        available < T) := by
  constructor
  · intro hT
    rw [calculate_fill_price_eq, if_pos hT]
  · intro hT hliq
    cases asks with
    | nil =>
      refine ⟨0, ?_, by simp [consumedFills], hT⟩
      rw [calculate_fill_price_eq, if_neg (not_le.mpr hT), if_pos (by simp)]
    | cons a rest =>
      have hsz : ∀ l ∈ a :: rest, 0 ≤ l.size := fun l hl => (hpos l hl).le
      have hsum := consumedFills_sum_le (a :: rest) T hsz
      have hrem := fillLoop_rem_eq (a :: rest) T 0 0
      have hrpos : 0 < (fillLoop (a :: rest) T 0 0).1 := by
        rw [hrem]
        linarith
      refine ⟨T - (fillLoop (a :: rest) T 0 0).1, ?_, by rw [hrem]; ring, by linarith⟩
      rw [calculate_fill_price_eq, if_neg (not_le.mpr hT), if_neg (by simp),
        if_pos (ne_of_gt hrpos)]

/-- Unfolding of `calculate_opportunity` when both fill walks
succeed. -/
theorem calculate_opportunity_ok_ok (now : ℤ) (market : Market)
    (up_book down_book : OutcomeBook) (target_size threshold : ℚ)
    (up_fill down_fill : FillInfo)
    (hu : calculate_fill_price up_book.asks target_size = .ok up_fill)
    (hd : calculate_fill_price down_book.asks target_size = .ok down_fill) :
    calculate_opportunity now market up_book down_book target_size threshold =
      if threshold < up_fill.worst_price + down_fill.worst_price then none
      else some
        { market := market
          up_price := up_fill.worst_price
          down_price := down_fill.worst_price
          total_cost := up_fill.worst_price + down_fill.worst_price
          profit_per_share := 1 - (up_fill.worst_price + down_fill.worst_price)
          profit_pct :=
            if 0 < up_fill.worst_price + down_fill.worst_price then
              (1 - (up_fill.worst_price + down_fill.worst_price)) /
                (up_fill.worst_price + down_fill.worst_price) * 100
            else 0
          order_size := target_size
          total_investment := (up_fill.worst_price + down_fill.worst_price) * target_size
          expected_payout := target_size
          expected_profit :=
            target_size - (up_fill.worst_price + down_fill.worst_price) * target_size
          best_ask_up := up_fill.best_price
          best_ask_down := down_fill.best_price
          vwap_up := some up_fill.vwap
          vwap_down := some down_fill.vwap
          detected_at := now } := by
  unfold calculate_opportunity
  rw [hu, hd]

/-- Unfolding of `check_arbitrage` on a pair of non-inverted books. -/
theorem check_arbitrage_not_inverted (now : ℤ) (market : Market)
    (up_book down_book : OutcomeBook) (config : Config)
    (hup : up_book.is_inverted = false)
    (hdown : down_book.is_inverted = false) :
    check_arbitrage now market up_book down_book config =
      if up_book.asks.isEmpty || down_book.asks.isEmpty then .ok none
      else .ok (calculate_opportunity now market up_book down_book
        config.order_size config.target_pair_cost) := by
  unfold check_arbitrage
  rw [hup, hdown]
  simp

/-- Claim C1: for non-inverted books, whenever detection returns
`Some(opp)`, the two limit prices equal the fill walks' worst prices
for the configured size, `total_cost` is their sum and stays within
the threshold, `profit_per_share = 1 - total_cost`,
`total_investment = total_cost × size`, `expected_payout = size`, and
`expected_profit = expected_payout - total_investment`; and detection
returns `None` whenever the walk-based total cost exceeds the
threshold. -/
theorem c1_detector_opportunity (now : ℤ) (market : Market)
    (up_book down_book : OutcomeBook) (config : Config)
    (hup : up_book.is_inverted = false)
    (hdown : down_book.is_inverted = false) :
    (∀ opp : ArbitrageOpportunity,
      check_arbitrage now market up_book down_book config = .ok (some opp) →
      ∃ up_fill down_fill : FillInfo,
        calculate_fill_price up_book.asks config.order_size = .ok up_fill ∧
        calculate_fill_price down_book.asks config.order_size = .ok down_fill ∧
        opp.up_price = up_fill.worst_price ∧
        opp.down_price = down_fill.worst_price ∧
        opp.total_cost = opp.up_price + opp.down_price ∧
        opp.total_cost ≤ config.target_pair_cost ∧
        opp.profit_per_share = 1 - opp.total_cost ∧
        opp.total_investment = opp.total_cost * config.order_size ∧
        opp.expected_payout = config.order_size ∧
        opp.expected_profit = opp.expected_payout - opp.total_investment) ∧
    (∀ up_fill down_fill : FillInfo,
      calculate_fill_price up_book.asks config.order_size = .ok up_fill →
      calculate_fill_price down_book.asks config.order_size = .ok down_fill →
      config.target_pair_cost < up_fill.worst_price + down_fill.worst_price →
      check_arbitrage now market up_book down_book config = .ok none) := by
  constructor
  · intro opp h
    rw [check_arbitrage_not_inverted now market up_book down_book config hup hdown] at h
    by_cases hempty : up_book.asks.isEmpty || down_book.asks.isEmpty
    · rw [if_pos hempty] at h
      simp at h
    · rw [if_neg hempty] at h
      have hsome : calculate_opportunity now market up_book down_book
          config.order_size config.target_pair_cost = some opp := by
        injection h
      cases hu : calculate_fill_price up_book.asks config.order_size with
      | error eu =>
        unfold calculate_opportunity at hsome
        rw [hu] at hsome
        simp at hsome
      | ok up_fill =>
        cases hd : calculate_fill_price down_book.asks config.order_size with
        | error ed =>
          unfold calculate_opportunity at hsome
          rw [hu, hd] at hsome
          simp at hsome
        | ok down_fill =>
          rw [calculate_opportunity_ok_ok now market up_book down_book
            config.order_size config.target_pair_cost up_fill down_fill hu hd] at hsome
          by_cases hth : config.target_pair_cost <
              up_fill.worst_price + down_fill.worst_price
          · rw [if_pos hth] at hsome
            simp at hsome
          · rw [if_neg hth] at hsome
            have hrec := Option.some.inj hsome
            subst hrec
            exact ⟨up_fill, down_fill, rfl, rfl, rfl, rfl, rfl, not_lt.mp hth,
              rfl, rfl, rfl, rfl⟩
  · intro up_fill down_fill hu hd hth
    rw [check_arbitrage_not_inverted now market up_book down_book config hup hdown]
    by_cases hempty : up_book.asks.isEmpty || down_book.asks.isEmpty
    · rw [if_pos hempty]
    · rw [if_neg hempty]
      rw [calculate_opportunity_ok_ok now market up_book down_book
        config.order_size config.target_pair_cost up_fill down_fill hu hd]
      rw [if_pos hth]

/-- Claim C6: an inverted book makes the detector fail with
`BookInverted` naming the inverted side, the `UP` book being checked
first, and the detector never returns an opportunity in that case. -/
theorem c6_inverted_book (now : ℤ) (market : Market)
    (up_book down_book : OutcomeBook) (config : Config) :
    (up_book.is_inverted = true →
      check_arbitrage now market up_book down_book config =
        .error (.BookInverted "UP" (up_book.best_ask.getD 0)
          (up_book.best_bid.getD 0))) ∧
    (up_book.is_inverted = false → down_book.is_inverted = true →
      check_arbitrage now market up_book down_book config =
        .error (.BookInverted "DOWN" (down_book.best_ask.getD 0)
          (down_book.best_bid.getD 0))) ∧
    ((up_book.is_inverted = true ∨ down_book.is_inverted = true) →
      ∀ res : Option ArbitrageOpportunity,
        check_arbitrage now market up_book down_book config ≠ .ok res) := by
  refine ⟨?_, ?_, ?_⟩
  · intro h
    unfold check_arbitrage
    rw [h]
    simp
  · intro h1 h2
    unfold check_arbitrage
    rw [h1, h2]
    simp
  · intro h res heq
    rcases h with h | h
    · unfold check_arbitrage at heq
      rw [h] at heq
      simp at heq
    · by_cases h1 : up_book.is_inverted = true
      · unfold check_arbitrage at heq
        rw [h1] at heq
        simp at heq
      · unfold check_arbitrage at heq
        rw [Bool.not_eq_true] at h1
        rw [h1, h] at heq
        simp at heq

/-- A book missing a best bid or a best ask is not inverted. -/
theorem is_inverted_false_of_no_side (b : OutcomeBook)
    (h : b.best_bid = none ∨ b.best_ask = none) : b.is_inverted = false := by
  unfold OutcomeBook.is_inverted
  cases hbid : b.best_bid with
  | none => rfl
  | some bid =>
    cases hask : b.best_ask with
    | none => rfl
    | some ask =>
      rcases h with h | h
      · rw [hbid] at h
        exact absurd h (by simp)
      · rw [hask] at h
        exact absurd h (by simp)

/-- Claim C10: a one-sided or empty book is never considered
inverted, and when an ask side is missing (and the other book is not
inverted) the detector returns `Ok(None)` rather than `BookInverted`. -/
theorem c10_one_sided_books (b : OutcomeBook) (now : ℤ) (market : Market)
    (up_book down_book : OutcomeBook) (config : Config) :
    ((b.best_bid = none ∨ b.best_ask = none) → b.is_inverted = false) ∧
    (down_book.is_inverted = false → up_book.asks = [] →
      check_arbitrage now market up_book down_book config = .ok none) ∧
    (up_book.is_inverted = false → down_book.asks = [] →
      check_arbitrage now market up_book down_book config = .ok none) := by
  refine ⟨is_inverted_false_of_no_side b, ?_, ?_⟩
  · intro hdown hasks
    have hup : up_book.is_inverted = false :=
      is_inverted_false_of_no_side up_book
        (Or.inr (by simp [OutcomeBook.best_ask, hasks]))
    rw [check_arbitrage_not_inverted now market up_book down_book config hup hdown]
    rw [if_pos (by simp [hasks])]
  · intro hup hasks
    have hdown : down_book.is_inverted = false :=
      is_inverted_false_of_no_side down_book
        (Or.inr (by simp [OutcomeBook.best_ask, hasks]))
    rw [check_arbitrage_not_inverted now market up_book down_book config hup hdown]
    rw [if_pos (by simp [hasks])]

/-- Incrementing `opportunities_found` does not change the cooldown
check. -/
theorem is_cooldown_active_set_found (e : ArbitrageExecutor) (now n : ℕ) :
    ({ e with opportunities_found := n } : ArbitrageExecutor).is_cooldown_active now =
      e.is_cooldown_active now := rfl

/-- Incrementing `opportunities_found` does not change the remaining
cooldown. -/
theorem cooldown_remaining_set_found (e : ArbitrageExecutor) (now n : ℕ) :
    ({ e with opportunities_found := n } : ArbitrageExecutor).cooldown_remaining now =
      e.cooldown_remaining now := rfl

/-- With the cooldown active, `execute` returns `CooldownActive` and
only counts the opportunity. -/
theorem execute_guard_active (e : ArbitrageExecutor) (now : ℕ) (config : Config)
    (opportunity : ArbitrageOpportunity) (balance_result : Except TradingError ℚ)
    (up_submit down_submit : Except TradingError String)
    (up_state down_state : OrderState) (up_unwind down_unwind : Option String)
    (h : e.is_cooldown_active now = true) :
    e.execute now config opportunity balance_result up_submit down_submit
        up_state down_state up_unwind down_unwind =
      (.ok (.CooldownActive (e.cooldown_remaining now)),
        { e with opportunities_found := e.opportunities_found + 1 }) := by
  simp only [ArbitrageExecutor.execute, is_cooldown_active_set_found,
    cooldown_remaining_set_found, h, if_pos]

/-- `execute` never changes the configured cooldown duration. -/
theorem execute_cooldown_seconds (e : ArbitrageExecutor) (now : ℕ) (config : Config)
    (opportunity : ArbitrageOpportunity) (balance_result : Except TradingError ℚ)
    (up_submit down_submit : Except TradingError String)
    (up_state down_state : OrderState) (up_unwind down_unwind : Option String) :
    ((e.execute now config opportunity balance_result up_submit down_submit
        up_state down_state up_unwind down_unwind).2).cooldown_seconds =
      e.cooldown_seconds := by
  simp only [ArbitrageExecutor.execute, ArbitrageExecutor.execute_simulated,
    ArbitrageExecutor.execute_real]
  repeat' split
  all_goals rfl

/-- When the cooldown guard passes, `execute` stamps
`last_execution = now` on every path. -/
theorem execute_last_execution (e : ArbitrageExecutor) (now : ℕ) (config : Config)
    (opportunity : ArbitrageOpportunity) (balance_result : Except TradingError ℚ)
    (up_submit down_submit : Except TradingError String)
    (up_state down_state : OrderState) (up_unwind down_unwind : Option String)
    (h : e.is_cooldown_active now = false) :
    ((e.execute now config opportunity balance_result up_submit down_submit
        up_state down_state up_unwind down_unwind).2).last_execution = some now := by
  simp only [ArbitrageExecutor.execute, ArbitrageExecutor.execute_simulated,
    ArbitrageExecutor.execute_real, is_cooldown_active_set_found, h,
    Bool.false_eq_true, if_false]
  repeat' split
  all_goals rfl

/-- Claim C4: in dry-run mode (cooldown inactive), `execute` with a
sufficient simulated balance returns `Simulated`, deducts the
investment from `sim_balance`, and bumps `trades_executed` by one,
`total_invested` by the investment and `total_shares_bought` by twice
the order size; with an insufficient simulated balance it returns
`InsufficientBalance` and leaves those fields unchanged. -/
theorem c4_simulated_execution (e : ArbitrageExecutor) (now : ℕ) (config : Config)
    (opportunity : ArbitrageOpportunity) (balance_result : Except TradingError ℚ)
    (up_submit down_submit : Except TradingError String)
    (up_state down_state : OrderState) (up_unwind down_unwind : Option String)
    (hdry : config.dry_run = true)
    (hcool : e.is_cooldown_active now = false) :
    (opportunity.total_investment ≤ e.sim_balance →
      e.execute now config opportunity balance_result up_submit down_submit
          up_state down_state up_unwind down_unwind =
        (.ok (.Simulated opportunity.total_investment opportunity.expected_profit),
          { e with
            opportunities_found := e.opportunities_found + 1
            last_execution := some now
            sim_balance := e.sim_balance - opportunity.total_investment
            total_invested := e.total_invested + opportunity.total_investment
            total_shares_bought := e.total_shares_bought + opportunity.order_size * 2
            trades_executed := e.trades_executed + 1 })) ∧
    (e.sim_balance < opportunity.total_investment →
      e.execute now config opportunity balance_result up_submit down_submit
          up_state down_state up_unwind down_unwind =
        (.ok (.InsufficientBalance opportunity.total_investment e.sim_balance),
          { e with
            opportunities_found := e.opportunities_found + 1
            last_execution := some now })) := by
  constructor
  · intro hbal
    simp only [ArbitrageExecutor.execute, is_cooldown_active_set_found, hcool,
      Bool.false_eq_true, if_false, hdry, if_true,
      ArbitrageExecutor.execute_simulated]
    rw [if_neg (not_lt.mpr hbal)]
  · intro hbal
    simp only [ArbitrageExecutor.execute, is_cooldown_active_set_found, hcool,
      Bool.false_eq_true, if_false, hdry, if_true,
      ArbitrageExecutor.execute_simulated]
    rw [if_pos hbal]

/-- Claim C5: with the cooldown active, `execute` returns
`CooldownActive{remaining_seconds}` and changes nothing in the
executor state except counting the opportunity; consequently two
consecutive `execute` calls separated by less than `cooldown_seconds`
yield at most one non-cooldown result. -/
theorem c5_cooldown_frame (e : ArbitrageExecutor) (now : ℕ) (config : Config)
    (opportunity : ArbitrageOpportunity) (balance_result : Except TradingError ℚ)
    (up_submit down_submit : Except TradingError String)
    (up_state down_state : OrderState) (up_unwind down_unwind : Option String) :
    (e.is_cooldown_active now = true →
      e.execute now config opportunity balance_result up_submit down_submit
          up_state down_state up_unwind down_unwind =
        (.ok (.CooldownActive (e.cooldown_remaining now)),
          { e with opportunities_found := e.opportunities_found + 1 })) ∧
    (∀ (now2 : ℕ) (config2 : Config) (opportunity2 : ArbitrageOpportunity)
        (balance2 : Except TradingError ℚ) (us2 ds2 : Except TradingError String)
        (ust2 dst2 : OrderState) (uw2 dw2 : Option String),
      now2 - now < e.cooldown_seconds →
      (∀ s, (e.execute now config opportunity balance_result up_submit down_submit
          up_state down_state up_unwind down_unwind).1 ≠ .ok (.CooldownActive s)) →
      ∃ s, ((e.execute now config opportunity balance_result up_submit down_submit
          up_state down_state up_unwind down_unwind).2.execute now2 config2
            opportunity2 balance2 us2 ds2 ust2 dst2 uw2 dw2).1 =
        .ok (.CooldownActive s)) := by
  constructor
  · intro h
    exact execute_guard_active e now config opportunity balance_result up_submit
      down_submit up_state down_state up_unwind down_unwind h
  · intro now2 config2 opportunity2 balance2 us2 ds2 ust2 dst2 uw2 dw2 hsep hnc
    by_cases hc1 : e.is_cooldown_active now = true
    · exfalso
      apply hnc (e.cooldown_remaining now)
      rw [execute_guard_active e now config opportunity balance_result up_submit
        down_submit up_state down_state up_unwind down_unwind hc1]
    · have hc1f : e.is_cooldown_active now = false := Bool.not_eq_true _ ▸ hc1
      have hlast := execute_last_execution e now config opportunity balance_result
        up_submit down_submit up_state down_state up_unwind down_unwind hc1f
      have hcd := execute_cooldown_seconds e now config opportunity balance_result
        up_submit down_submit up_state down_state up_unwind down_unwind
      have hactive2 : ((e.execute now config opportunity balance_result up_submit
          down_submit up_state down_state up_unwind down_unwind).2).is_cooldown_active
            now2 = true := by
        unfold ArbitrageExecutor.is_cooldown_active
        rw [hlast]
        simp [hcd, hsep]
      exact ⟨_, by rw [execute_guard_active _ now2 config2 opportunity2 balance2
        us2 ds2 ust2 dst2 uw2 dw2 hactive2]⟩

/-- Claim C9: a freshly created executor has no cooldown: the check is
inactive, the remaining time is zero, and the first `execute` call is
never answered with `CooldownActive`, whatever the configured
cooldown. -/
theorem c9_fresh_executor (config : Config) (e : ArbitrageExecutor)
    (he : e = ArbitrageExecutor.new config) (now : ℕ) :
    e.is_cooldown_active now = false ∧
    e.cooldown_remaining now = 0 ∧
    ∀ (config2 : Config) (opportunity : ArbitrageOpportunity)
      (balance_result : Except TradingError ℚ)
      (up_submit down_submit : Except TradingError String)
      (up_state down_state : OrderState) (up_unwind down_unwind : Option String)
      (s : ℕ),
      (e.execute now config2 opportunity balance_result up_submit down_submit
          up_state down_state up_unwind down_unwind).1 ≠
        .ok (.CooldownActive s) := by
  subst he
  refine ⟨rfl, rfl, ?_⟩
  intro config2 opportunity balance_result up_submit down_submit up_state
    down_state up_unwind down_unwind s heq
  have hfresh : (ArbitrageExecutor.new config).is_cooldown_active now = false := rfl
  simp only [ArbitrageExecutor.execute, ArbitrageExecutor.execute_simulated,
    ArbitrageExecutor.execute_real, is_cooldown_active_set_found, hfresh,
    Bool.false_eq_true, if_false] at heq
  revert heq
  repeat' split
  all_goals simp

/-- Removing a key deletes exactly that key from the association
map. -/
theorem mapLookup_mapRemove : ∀ (m : List (ℚ × ℚ)) (p q : ℚ),
    mapLookup (mapRemove m p) q = if q = p then none else mapLookup m q := by
  intro m p
  induction m with
  | nil =>
    intro q
    by_cases h : q = p <;> simp [mapRemove, mapLookup, h]
  | cons a t ih =>
    intro q
    by_cases hap : a.1 = p
    · rw [show mapRemove (a :: t) p = mapRemove t p by simp [mapRemove, hap]]
      rw [ih q]
      by_cases hq : q = p
      · simp [hq]
      · have haq : ¬ a.1 = q := by
          rw [hap]
          exact fun h => hq h.symm
        simp [mapLookup, haq, hq]
    · rw [show mapRemove (a :: t) p = a :: mapRemove t p by simp [mapRemove, hap]]
      by_cases haq : a.1 = q
      · have hq : ¬ q = p := by
          rw [← haq]
          exact fun h => hap h
        simp [mapLookup, haq, hq]
      · simp [mapLookup, haq, ih q]

/-- Inserting a key overwrites exactly that key in the association
map. -/
theorem mapLookup_mapInsert (m : List (ℚ × ℚ)) (p s q : ℚ) :
    mapLookup (mapInsert m p s) q = if q = p then some s else mapLookup m q := by
  unfold mapInsert
  by_cases h : q = p
  · simp [mapLookup, h]
  · have hpq : ¬ p = q := fun h2 => h h2.symm
    simp [mapLookup, hpq, h, mapLookup_mapRemove]

/-- The snapshot insertion loop agrees pointwise with its reference
counterpart. -/
theorem snapshotInsert_lookup : ∀ (levels : List WsLevel) (m : List (ℚ × ℚ))
    (f : ℚ → Option ℚ),
    (∀ q, mapLookup m q = f q) →
    ∀ q, mapLookup (snapshotInsert m levels) q = refSnapshotInsert f levels q := by
  intro levels
  induction levels with
  | nil => intro m f h q; exact h q
  | cons level rest ih =>
    intro m f h q
    rw [show snapshotInsert m (level :: rest) =
        snapshotInsert
          (match level.price, level.size with
            | some price, some size =>
              if 0 < size then mapInsert m price size else m
            | _, _ => m) rest
      from rfl]
    rw [show refSnapshotInsert f (level :: rest) =
        refSnapshotInsert
          (match level.price, level.size with
            | some price, some size =>
              if 0 < size then refInsert f price size else f
            | _, _ => f) rest
      from rfl]
    apply ih
    intro q2
    cases hp : level.price with
    | none => simpa [hp] using h q2
    | some price =>
      cases hs : level.size with
      | none => simpa [hp, hs] using h q2
      | some size =>
        by_cases hpos : 0 < size
        · simp only [hp, hs, if_pos hpos]
          rw [mapLookup_mapInsert]
          unfold refInsert
          by_cases hq : q2 = price <;> simp [hq, h q2]
        · simpa [hp, hs, hpos] using h q2

/-- Applying one delta preserves pointwise agreement with the
case-insensitive reference dictionary. -/
theorem apply_delta_lookup (st : L2BookState) (r : RefBook)
    (change : WsPriceChange)
    (hb : ∀ q, mapLookup st.bids q = r.bids q)
    (ha : ∀ q, mapLookup st.asks q = r.asks q) :
    (∀ q, mapLookup (st.apply_delta change).bids q =
      (refApplyUpper r (.delta change)).bids q) ∧
    (∀ q, mapLookup (st.apply_delta change).asks q =
      (refApplyUpper r (.delta change)).asks q) := by
  cases hp : change.price with
  | none => constructor <;> intro q <;>
      simp [L2BookState.apply_delta, refApplyUpper, hp, hb q, ha q]
  | some price =>
    cases hs : change.size with
    | none => constructor <;> intro q <;>
        simp [L2BookState.apply_delta, refApplyUpper, hp, hs, hb q, ha q]
    | some size =>
      by_cases hbuy : strToUpper change.side = "BUY"
      · by_cases hneg : size ≤ 0
        · constructor <;> intro q <;>
            cases hh : change.hash <;>
            simp [L2BookState.apply_delta, refApplyUpper, refDelete, hp, hs,
              hbuy, hneg, hh, mapLookup_mapRemove, hb q, ha q]
        · constructor <;> intro q <;>
            cases hh : change.hash <;>
            simp [L2BookState.apply_delta, refApplyUpper, refInsert, hp, hs,
              hbuy, hneg, hh, mapLookup_mapInsert, hb q, ha q]
      · by_cases hsell : strToUpper change.side = "SELL"
        · by_cases hneg : size ≤ 0
          · constructor <;> intro q <;>
              cases hh : change.hash <;>
              simp [L2BookState.apply_delta, refApplyUpper, refDelete, hp, hs,
                hbuy, hsell, hneg, hh, mapLookup_mapRemove, hb q, ha q]
          · constructor <;> intro q <;>
              cases hh : change.hash <;>
              simp [L2BookState.apply_delta, refApplyUpper, refInsert, hp, hs,
                hbuy, hsell, hneg, hh, mapLookup_mapInsert, hb q, ha q]
        · constructor <;> intro q <;>
            simp [L2BookState.apply_delta, refApplyUpper, hp, hs, hbuy, hsell,
              hb q, ha q]

/-- Replaying any operation sequence preserves pointwise agreement
with the case-insensitive reference dictionary. -/
theorem replay_lookup_eq : ∀ (ops : List BookOp) (st : L2BookState) (r : RefBook),
    (∀ q, mapLookup st.bids q = r.bids q) →
    (∀ q, mapLookup st.asks q = r.asks q) →
    (∀ q, mapLookup (replayState ops st).bids q = (refReplayUpper ops r).bids q) ∧
    (∀ q, mapLookup (replayState ops st).asks q = (refReplayUpper ops r).asks q) := by
  intro ops
  induction ops with
  | nil => intro st r hb ha; exact ⟨hb, ha⟩
  | cons op rest ih =>
    intro st r hb ha
    rw [show replayState (op :: rest) st = replayState rest
        (match op with
          | .snapshot bids asks => st.apply_snapshot bids asks
          | .delta change => st.apply_delta change) from rfl]
    rw [show refReplayUpper (op :: rest) r = refReplayUpper rest (refApplyUpper r op)
      from rfl]
    cases op with
    | snapshot bids asks =>
      apply ih
      · intro q
        exact snapshotInsert_lookup bids [] (fun _ => none) (fun _ => rfl) q
      · intro q
        exact snapshotInsert_lookup asks [] (fun _ => none) (fun _ => rfl) q
    | delta change =>
      obtain ⟨h1, h2⟩ := apply_delta_lookup st r change hb ha
      exact ih _ _ h1 h2

/-- A reference map all of whose stored sizes are positive. -/
def refPos (f : ℚ → Option ℚ) : Prop := ∀ q s, f q = some s → 0 < s

/-- The snapshot insertion loop only stores positive sizes. -/
theorem refSnapshotInsert_pos : ∀ (levels : List WsLevel) (f : ℚ → Option ℚ),
    refPos f → refPos (refSnapshotInsert f levels) := by
  intro levels
  induction levels with
  | nil => intro f h; exact h
  | cons level rest ih =>
    intro f h
    rw [show refSnapshotInsert f (level :: rest) =
        refSnapshotInsert
          (match level.price, level.size with
            | some price, some size =>
              if 0 < size then refInsert f price size else f
            | _, _ => f) rest
      from rfl]
    apply ih
    cases hp : level.price with
    | none => simpa [hp] using h
    | some price =>
      cases hs : level.size with
      | none => simpa [hp, hs] using h
      | some size =>
        by_cases hpos : 0 < size
        · simp only [hp, hs, if_pos hpos]
          intro q s hq
          unfold refInsert at hq
          by_cases hqp : q = price
          · rw [if_pos hqp] at hq
            cases hq
            exact hpos
          · exact h q s (by rwa [if_neg hqp] at hq)
        · simpa [hp, hs, hpos] using h

/-- Deleting never introduces a nonpositive stored size. -/
theorem refDelete_pos (f : ℚ → Option ℚ) (p : ℚ) (h : refPos f) :
    refPos (refDelete f p) := by
  intro q s hq
  unfold refDelete at hq
  by_cases hqp : q = p
  · rw [if_pos hqp] at hq
    cases hq
  · exact h q s (by rwa [if_neg hqp] at hq)

/-- Inserting a positive size preserves positivity of stored sizes. -/
theorem refInsert_pos (f : ℚ → Option ℚ) (p s0 : ℚ) (h : refPos f)
    (hs0 : 0 < s0) : refPos (refInsert f p s0) := by
  intro q s hq
  unfold refInsert at hq
  by_cases hqp : q = p
  · rw [if_pos hqp] at hq
    cases hq
    exact hs0
  · exact h q s (by rwa [if_neg hqp] at hq)

/-- Replaying into the case-insensitive reference dictionary only
stores positive sizes. -/
theorem refReplayUpper_pos : ∀ (ops : List BookOp) (r : RefBook),
    refPos r.bids → refPos r.asks →
    refPos (refReplayUpper ops r).bids ∧ refPos (refReplayUpper ops r).asks := by
  intro ops
  induction ops with
  | nil => intro r hb ha; exact ⟨hb, ha⟩
  | cons op rest ih =>
    intro r hb ha
    rw [show refReplayUpper (op :: rest) r = refReplayUpper rest (refApplyUpper r op)
      from rfl]
    apply ih
    all_goals
      cases op with
      | snapshot bids asks =>
        exact refSnapshotInsert_pos _ _ (fun q s h => by cases h)
      | delta change =>
        cases hp : change.price with
        | none => simpa [refApplyUpper, hp]
        | some price =>
          cases hs : change.size with
          | none => simpa [refApplyUpper, hp, hs]
          | some size =>
            by_cases hbuy : strToUpper change.side = "BUY"
            · by_cases hneg : size ≤ 0
              · first
                | simpa [refApplyUpper, hp, hs, hbuy, hneg] using
                    refDelete_pos r.bids price hb
                | simpa [refApplyUpper, hp, hs, hbuy, hneg]
              · first
                | simpa [refApplyUpper, hp, hs, hbuy, hneg] using
                    refInsert_pos r.bids price size hb (not_le.mp hneg)
                | simpa [refApplyUpper, hp, hs, hbuy, hneg]
            · by_cases hsell : strToUpper change.side = "SELL"
              · by_cases hneg : size ≤ 0
                · first
                  | simpa [refApplyUpper, hp, hs, hbuy, hsell, hneg] using
                      refDelete_pos r.asks price ha
                  | simpa [refApplyUpper, hp, hs, hbuy, hsell, hneg]
                · first
                  | simpa [refApplyUpper, hp, hs, hbuy, hsell, hneg] using
                      refInsert_pos r.asks price size ha (not_le.mp hneg)
                  | simpa [refApplyUpper, hp, hs, hbuy, hsell, hneg]
              · simpa [refApplyUpper, hp, hs, hbuy, hsell]

/-- Removing zero-size entries is the identity on a positive-size
reference map. -/
theorem refClean_eq_of_pos (f : ℚ → Option ℚ) (h : refPos f) :
    ∀ q, refClean f q = f q := by
  intro q
  unfold refClean
  cases hf : f q with
  | none => rfl
  | some s =>
    have hs : ¬ s = 0 := ne_of_gt (h q s hf)
    simp [hs]

/-- Claim C7 counterexample: the code uppercases the delta side before
matching, so a delta with side `buy` mutates the bid map while the
claim's reference dictionary, which matches the side against the
literal strings `BUY`/`SELL`, leaves it unchanged. -/
theorem c7_counterexample :
    ¬ (∀ ops : List BookOp,
      (∀ p, mapLookup (replayState ops L2BookState.empty).bids p =
        refClean (refReplay ops RefBook.empty).bids p) ∧
      (∀ p, mapLookup (replayState ops L2BookState.empty).asks p =
        refClean (refReplay ops RefBook.empty).asks p)) := by
  intro h
  have h1 := (h [BookOp.delta
    (WsPriceChange.mk none (some (1/2)) (some 100) "buy" none)]).1 (1/2)
  have hupper : strToUpper "buy" = "BUY" := by decide
  have hnb : ¬ ("buy" = "BUY") := by decide
  have hns : ¬ ("buy" = "SELL") := by decide
  have hcode : mapLookup (replayState [BookOp.delta
      (WsPriceChange.mk none (some (1/2)) (some 100) "buy" none)]
        L2BookState.empty).bids (1/2) = some 100 := by
    norm_num [replayState, L2BookState.apply_delta, L2BookState.empty, hupper,
      mapInsert, mapRemove, mapLookup]
  have href : refClean (refReplay [BookOp.delta
      (WsPriceChange.mk none (some (1/2)) (some 100) "buy" none)]
        RefBook.empty).bids (1/2) = none := by
    norm_num [refReplay, refApply, RefBook.empty, refClean, hnb, hns]
  rw [hcode, href] at h1
  cases h1

/-- Claim C7 (amended): for every operation sequence from the empty
state, the (price, size) entries of the bid and ask maps equal the
replay into the reference dictionary — with the reference's delta side
matched after uppercasing, as the state machine does — after removing
zero-size entries. -/
theorem c7_book_refinement (ops : List BookOp) :
    (∀ p, mapLookup (replayState ops L2BookState.empty).bids p =
      refClean (refReplayUpper ops RefBook.empty).bids p) ∧
    (∀ p, mapLookup (replayState ops L2BookState.empty).asks p =
      refClean (refReplayUpper ops RefBook.empty).asks p) := by
  have heq := replay_lookup_eq ops L2BookState.empty RefBook.empty
    (fun q => rfl) (fun q => rfl)
  have hpos := refReplayUpper_pos ops RefBook.empty
    (fun q s h => by cases h) (fun q s h => by cases h)
  constructor
  · intro p
    rw [refClean_eq_of_pos _ hpos.1 p]
    exact heq.1 p
  · intro p
    rw [refClean_eq_of_pos _ hpos.2 p]
    exact heq.2 p

/-- Witness for C1 at the profitable scenario (asks UP 0.48×100, DOWN
0.51×100, size 10, threshold 0.991). -/
theorem c1_witness :
    ∃ up_fill down_fill : FillInfo,
      calculate_fill_price sampleUpBook.asks sampleConfig.order_size = .ok up_fill ∧
      calculate_fill_price sampleDownBook.asks sampleConfig.order_size =
        .ok down_fill ∧
      sampleDetected.up_price = up_fill.worst_price ∧
      sampleDetected.down_price = down_fill.worst_price ∧
      sampleDetected.total_cost = sampleDetected.up_price + sampleDetected.down_price ∧
      sampleDetected.total_cost ≤ sampleConfig.target_pair_cost ∧
      sampleDetected.profit_per_share = 1 - sampleDetected.total_cost ∧
      sampleDetected.total_investment =
        sampleDetected.total_cost * sampleConfig.order_size ∧
      sampleDetected.expected_payout = sampleConfig.order_size ∧
      sampleDetected.expected_profit =
        sampleDetected.expected_payout - sampleDetected.total_investment := by
  have hfu : calculate_fill_price sampleUpBook.asks sampleConfig.order_size =
      .ok ⟨10, 48/10, 48/100, 48/100, some (48/100)⟩ := by
    norm_num [calculate_fill_price_eq, fillLoop, sampleUpBook, sampleConfig]
  have hfd : calculate_fill_price sampleDownBook.asks sampleConfig.order_size =
      .ok ⟨10, 51/10, 51/100, 51/100, some (51/100)⟩ := by
    norm_num [calculate_fill_price_eq, fillLoop, sampleDownBook, sampleConfig]
  have hdet : check_arbitrage 0 sampleMarket sampleUpBook sampleDownBook
      sampleConfig = .ok (some sampleDetected) := by
    rw [check_arbitrage_not_inverted 0 sampleMarket sampleUpBook sampleDownBook
      sampleConfig rfl rfl]
    rw [if_neg (by norm_num [sampleUpBook, sampleDownBook])]
    rw [calculate_opportunity_ok_ok 0 sampleMarket sampleUpBook sampleDownBook
      sampleConfig.order_size sampleConfig.target_pair_cost _ _ hfu hfd]
    rw [if_neg (by norm_num [sampleConfig])]
    norm_num [sampleDetected, sampleConfig]
  exact (c1_detector_opportunity 0 sampleMarket sampleUpBook sampleDownBook
    sampleConfig rfl rfl).1 sampleDetected hdet

/-- Witness for C2 at the level-spanning scenario (asks 0.48×5,
0.49×5, 0.50×10, target 10). -/
theorem c2_witness :
    ∃ info : FillInfo,
      calculate_fill_price [⟨48/100, 5⟩, ⟨49/100, 5⟩, ⟨1/2, 10⟩] 10 = .ok info ∧
      info.filled_size = 10 ∧
      info.total_cost = ((consumedFills [⟨48/100, 5⟩, ⟨49/100, 5⟩, ⟨1/2, 10⟩] 10).map
        (fun q => q.1 * q.2)).sum ∧
      ((consumedFills [⟨48/100, 5⟩, ⟨49/100, 5⟩, ⟨1/2, 10⟩] 10).map
        Prod.snd).getLast? = some info.worst_price ∧
      info.best_price =
        ([⟨48/100, 5⟩, ⟨49/100, 5⟩, ⟨1/2, 10⟩] :
          List PriceLevel).head?.map PriceLevel.price ∧
      info.vwap = info.total_cost / 10 ∧
      info.vwap * 10 = info.total_cost ∧
      (∃ b, info.best_price = some b ∧ b ≤ info.vwap) ∧
      info.vwap ≤ info.worst_price :=
  c2_fill_walk [⟨48/100, 5⟩, ⟨49/100, 5⟩, ⟨1/2, 10⟩] 10 (by norm_num)
    (by norm_num [List.pairwise_cons])
    (by norm_num [List.forall_mem_cons])
    (by norm_num)

/-- Witness for C3 at the insufficient-liquidity scenario (one ask
0.50×5, target 10) and at the invalid size 0. -/
theorem c3_witness :
    (calculate_fill_price [⟨1/2, 5⟩] 0 = .error (.InvalidSize 0)) ∧
    ∃ available,
      calculate_fill_price [⟨1/2, 5⟩] 10 =
        .error (.InsufficientLiquidity 10 available) ∧
      available = ((consumedFills [⟨1/2, 5⟩] 10).map Prod.fst).sum ∧
      available < 10 :=
  ⟨(c3_fill_walk_failures [⟨1/2, 5⟩] 0 (by norm_num [List.forall_mem_cons])).1
      le_rfl,
    (c3_fill_walk_failures [⟨1/2, 5⟩] 10 (by norm_num [List.forall_mem_cons])).2
      (by norm_num) (by norm_num)⟩

/-- Witness for C4 at the simulated-execution scenario: balance 100,
investment 9.9, size 10 → `Simulated`, balance 90.1, one trade, 20
shares. -/
theorem c4_witness :
    (ArbitrageExecutor.new sampleConfig).execute 0 sampleConfig sampleDetected
        (.ok 0) (.ok "u") (.ok "d") ⟨false, none⟩ ⟨false, none⟩ none none =
      (.ok (.Simulated (99/10) (1/10)),
        { ArbitrageExecutor.new sampleConfig with
          opportunities_found := 1
          last_execution := some 0
          sim_balance := 901/10
          total_invested := 99/10
          total_shares_bought := 20
          trades_executed := 1 }) := by
  have h := (c4_simulated_execution (ArbitrageExecutor.new sampleConfig) 0
    sampleConfig sampleDetected (.ok 0) (.ok "u") (.ok "d") ⟨false, none⟩
    ⟨false, none⟩ none none rfl rfl).1
    (by norm_num [sampleDetected, ArbitrageExecutor.new, sampleConfig])
  rw [h]
  norm_num [sampleDetected, ArbitrageExecutor.new, sampleConfig]

/-- Witness for C5: a cooling executor (last execution at second 100,
cooldown 10 s) answers `CooldownActive 5` at second 105 touching only
the opportunity counter; and a fresh executor run at seconds 0 and 5
yields a cooldown answer on the second call. -/
theorem c5_witness :
    sampleCoolingExecutor.execute 105 sampleConfig sampleDetected (.ok 0)
        (.ok "u") (.ok "d") ⟨false, none⟩ ⟨false, none⟩ none none =
      (.ok (.CooldownActive 5),
        { sampleCoolingExecutor with opportunities_found := 1 }) ∧
    (∃ s, (((ArbitrageExecutor.new sampleConfig).execute 0 sampleConfig
        sampleDetected (.ok 0) (.ok "u") (.ok "d") ⟨false, none⟩ ⟨false, none⟩
          none none).2.execute 5 sampleConfig sampleDetected (.ok 0) (.ok "u")
            (.ok "d") ⟨false, none⟩ ⟨false, none⟩ none none).1 =
      .ok (.CooldownActive s)) := by
  constructor
  · have h := (c5_cooldown_frame sampleCoolingExecutor 105 sampleConfig
      sampleDetected (.ok 0) (.ok "u") (.ok "d") ⟨false, none⟩ ⟨false, none⟩
      none none).1 rfl
    rw [h]
    rfl
  · have hr1 : ((ArbitrageExecutor.new sampleConfig).execute 0 sampleConfig
        sampleDetected (.ok 0) (.ok "u") (.ok "d") ⟨false, none⟩ ⟨false, none⟩
          none none).1 = .ok (.Simulated (99/10) (1/10)) := by
      norm_num [ArbitrageExecutor.execute, ArbitrageExecutor.execute_simulated,
        ArbitrageExecutor.is_cooldown_active, ArbitrageExecutor.new,
        sampleConfig, sampleDetected]
    refine (c5_cooldown_frame (ArbitrageExecutor.new sampleConfig) 0 sampleConfig
      sampleDetected (.ok 0) (.ok "u") (.ok "d") ⟨false, none⟩ ⟨false, none⟩
      none none).2 5 sampleConfig sampleDetected (.ok 0) (.ok "u") (.ok "d")
      ⟨false, none⟩ ⟨false, none⟩ none none (by decide) ?_
    intro s hs
    rw [hr1] at hs
    simp at hs

/-- Witness for C6 at the inverted-book scenario: UP best bid 0.52,
best ask 0.50 → `BookInverted` with side `UP`. -/
theorem c6_witness :
    check_arbitrage 0 sampleMarket sampleInvertedBook sampleDownBook
        sampleConfig =
      .error (.BookInverted "UP" (1/2) (52/100)) := by
  have hinv : sampleInvertedBook.is_inverted = true := by
    norm_num [sampleInvertedBook, OutcomeBook.is_inverted, OutcomeBook.best_bid,
      OutcomeBook.best_ask]
  have h := (c6_inverted_book 0 sampleMarket sampleInvertedBook sampleDownBook
    sampleConfig).1 hinv
  rw [h]
  norm_num [sampleInvertedBook, OutcomeBook.best_ask, OutcomeBook.best_bid]

/-- Witness for C9: the fresh executor built from the sample
configuration. -/
theorem c9_witness :
    (ArbitrageExecutor.new sampleConfig).is_cooldown_active 0 = false ∧
    (ArbitrageExecutor.new sampleConfig).cooldown_remaining 0 = 0 ∧
    ∀ (config2 : Config) (opportunity : ArbitrageOpportunity)
      (balance_result : Except TradingError ℚ)
      (up_submit down_submit : Except TradingError String)
      (up_state down_state : OrderState) (up_unwind down_unwind : Option String)
      (s : ℕ),
      ((ArbitrageExecutor.new sampleConfig).execute 0 config2 opportunity
          balance_result up_submit down_submit up_state down_state up_unwind
            down_unwind).1 ≠ .ok (.CooldownActive s) :=
  c9_fresh_executor sampleConfig (ArbitrageExecutor.new sampleConfig) rfl 0

/-- Witness for C10: a book with bids but no asks is not inverted, and
the detector returns `Ok(None)` on it. -/
theorem c10_witness :
    sampleNoAskBook.is_inverted = false ∧
    check_arbitrage 0 sampleMarket sampleNoAskBook sampleDownBook sampleConfig =
      .ok none := by
  have h := c10_one_sided_books sampleNoAskBook 0 sampleMarket sampleNoAskBook
    sampleDownBook sampleConfig
  exact ⟨h.1 (Or.inr rfl), h.2.1 rfl rfl⟩

end PolyArb
